import Mathlib

/-!
Shallow embedding of the USF decoder plugin (two revisions present in the
source: the millisecond-unit revision and the fade-variant revision),
together with proofs about its time-string parser, fade attenuation,
seek handling, playback-loop stop logic, metadata scan path and the
binary-payload loader callback.

External collaborators (the psflib container parser, the emulator core
and the host decoder API) are modelled by their observable interactions:
the decode and scan paths are embedded as functions from the values those
collaborators return to the list of calls the plugin makes back into
them.
-/

set_option maxHeartbeats 1000000
set_option maxRecDepth 100000

namespace Usf

/-- Wrap an integer to two's-complement 32-bit `int` range, as C signed
`int` arithmetic behaves on the target platforms. -/
def i32 (x : ℤ) : ℤ := (x + 2 ^ 31) % 2 ^ 32 - 2 ^ 31

/-- Wrap an integer to `unsigned long` (64-bit) range, as the assignment
of an `int` to the `unsigned long` length fields behaves. -/
def u64 (x : ℤ) : ℤ := x % 2 ^ 64

/-- Truncation toward zero of a rational: the C conversion of a `double`
to an integer type. -/
def c_trunc (q : ℚ) : ℤ := Int.tdiv q.num q.den

/-- Loop state of `get_length_from_string`: the variables
`total`, `final_mult`, `local_mult`, `acc` of the C loop. -/
structure ParseState where
  total : ℤ
  final_mult : ℤ
  local_mult : ℤ
  acc : ℤ
deriving DecidableEq

/-- The `c >= '0' && c <= '9'` test of the parser. -/
def is_digit_char (c : Char) : Bool := decide ('0' ≤ c) && decide (c ≤ '9')

/-- A character the parser accepts: digit, dot or colon. -/
def is_time_char (c : Char) : Bool := is_digit_char c || decide (c = '.') || decide (c = ':')

/-- One iteration of the right-to-left scanning loop of
`get_length_from_string` (32-bit `int` arithmetic); `none` models the
early `return -1` on an invalid character. -/
def parse_step (s : ParseState) (c : Char) : Option ParseState :=
  if is_digit_char c then
    some { s with
      acc := i32 (s.acc + i32 (((c.toNat : ℤ) - ('0'.toNat : ℤ)) * s.local_mult)),
      local_mult := i32 (s.local_mult * 10) }
  else if c = '.' then
    some { s with local_mult := 1, total := i32 (s.total + i32 (s.acc * 1)), acc := 0 }
  else if c = ':' then
    some { s with local_mult := 1, total := i32 (s.total + i32 (s.acc * 1000)),
                  final_mult := 60000, acc := 0 }
  else none

/-- Run the scanning loop over a list of characters (already reversed:
the C loop walks the string from its last character to its first). -/
def parse_chars : List Char → ParseState → Option ParseState
  | [], s => some s
  | c :: rest, s =>
    match parse_step s c with
    | none => none
    | some s2 => parse_chars rest s2

/-- The whole loop of `get_length_from_string` on a string given as its
character list. -/
def parse_run (l : List Char) : Option ParseState :=
  parse_chars l.reverse ⟨0, 1000, 1, 0⟩

/-- `get_length_from_string`, millisecond revision: returns the total in
milliseconds, or `-1` on an invalid character. -/
def get_length_from_string (l : List Char) : ℤ :=
  match parse_run l with
  | none => -1
  | some s => i32 (s.total + i32 (s.final_mult * s.acc))

/-- `get_length_from_string`, fade-variant revision: the same loop but
the function returns `total/1000` (a C `int` division) as a `double`. -/
def get_length_from_string_cxx (l : List Char) : ℚ :=
  match parse_run l with
  | none => -1
  | some s => ((Int.tdiv (i32 (s.total + i32 (s.final_mult * s.acc))) 1000 : ℤ) : ℚ)

/-- The scanning step read with ideal (unbounded) integer arithmetic:
the same code, ignoring 32-bit overflow. -/
def parse_step_exact (s : ParseState) (c : Char) : Option ParseState :=
  if is_digit_char c then
    some { s with
      acc := s.acc + ((c.toNat : ℤ) - ('0'.toNat : ℤ)) * s.local_mult,
      local_mult := s.local_mult * 10 }
  else if c = '.' then
    some { s with local_mult := 1, total := s.total + s.acc * 1, acc := 0 }
  else if c = ':' then
    some { s with local_mult := 1, total := s.total + s.acc * 1000,
                  final_mult := 60000, acc := 0 }
  else none

/-- The scanning loop with ideal integer arithmetic. -/
def parse_chars_exact : List Char → ParseState → Option ParseState
  | [], s => some s
  | c :: rest, s =>
    match parse_step_exact s c with
    | none => none
    | some s2 => parse_chars_exact rest s2

/-- `get_length_from_string` read with ideal integer arithmetic. -/
def get_length_from_string_exact (l : List Char) : ℤ :=
  match parse_chars_exact l.reverse ⟨0, 1000, 1, 0⟩ with
  | none => -1
  | some s => s.total + s.final_mult * s.acc

/-- `track_lengths` of the fade-variant revision: length plus fade. -/
def track_lengths (length fade : ℚ) : ℚ := length + fade

/-- The `normalized_vol` computation of the fade block: linear gain
`1 - (elapsed-into-fade / fade-length)`, clamped below at `0`. -/
def normalized_vol (fade_time track_length timestamp : ℚ) : ℚ :=
  let vol := 1 - ((timestamp - track_length) / fade_time)
  if vol < 0 then 0 else vol

/-- The fade block of the streaming loop: when fade is configured, the
track has a computed end and the timestamp has passed the track length,
every sample of the buffer is multiplied by the clamped linear gain
(`buf[i] *= normalized_vol`, an `int16_t` assignment truncating toward
zero); otherwise the buffer is untouched. -/
def apply_fade (fade_time track_length total_length timestamp : ℚ) (buf : List ℤ) : List ℤ :=
  if 0 < fade_time ∧ 0 ≤ total_length ∧ track_length < timestamp then
    buf.map (fun sm : ℤ =>
      c_trunc ((Int.cast sm : ℚ) * normalized_vol fade_time track_length timestamp))
  else buf

/-- `frames_to_throw` of the fade-variant seek handler:
`(unsigned)(sample_rate*target_time+0.5)`, i.e. the floor of
`rate*T + 1/2` for the non-negative values the cast is defined on. -/
def seek_frames_to_throw (rate : ℤ) (target : ℚ) : ℤ :=
  ⌊(rate : ℚ) * target + 1 / 2⌋

/-- `newTime` of the fade-variant seek handler:
`(frames_to_throw/(double)sample_rate)-0.5`. -/
def seek_new_time (rate : ℤ) (target : ℚ) : ℚ :=
  ((seek_frames_to_throw rate target : ℤ) : ℚ) / (rate : ℚ) - 1 / 2

/-- Modelled from the spec: the host seek-time accessor used by the
millisecond revision (`decoder_seek_time(decoder).ToS()`, host code of
this repository outside src/) delivers the non-negative seek target as a
whole number of seconds, truncating any fractional part. -/
def song_time_to_s (target : ℚ) : ℤ := ⌊target⌋

/-- `frames_to_throw` of the millisecond revision seek handler:
`target_time*sample_rate`, where `target_time` is the seek target
truncated to whole seconds by `ToS()`. -/
def seek_frames_ms_rev (rate : ℤ) (target : ℚ) : ℤ := song_time_to_s target * rate

/-- The timestamp the millisecond revision reports after a seek:
`decoder_timestamp(decoder, target_time)` with the truncated target. -/
def seek_timestamp_ms_rev (target : ℚ) : ℤ := song_time_to_s target

/-- `loop` of the millisecond revision: `lengths.length == 0`. -/
def ms_loop (length : ℤ) : Bool := length == 0

/-- The stop test of the millisecond revision streaming loop:
`!loop && decoded_frames > total_frames`. -/
def ms_stop_check (length decoded total_frames : ℤ) : Bool :=
  !(ms_loop length) && decide (total_frames < decoded)

/-- The host tag kinds targeted by the fixed tag table. -/
inductive TagType
  | TAG_TITLE
  | TAG_ARTIST
  | TAG_COMPOSER
  | TAG_ALBUM
  | TAG_DATE
  | TAG_GENRE
  | TAG_TRACK
  | TAG_NUM_OF_ITEM_TYPES
deriving DecidableEq

/-- The externally observable actions of the decode and scan paths. -/
inductive Event
  | psfLoad
  | logWarning
  | decoderInit (rate : ℤ) (total : ℚ)
  | submitData (buf : List ℤ)
  | emuAlloc
  | emuClear
  | emuRender (frames : ℤ)
  | emuRestart
  | emuShutdown
  | emuUpload
  | emuFree
  | emuSetCompare (b : Bool)
  | emuSetFifoFull (b : Bool)
  | cmdFinished
  | timestampSet (t : ℚ)
  | tagEmit (t : TagType) (v : String)
  | durationReportMS (ms : ℤ)
  | durationReportS (secs : ℚ)
  | printfDebug
deriving DecidableEq

/-- Is the event an operation on the emulator instance? -/
def Event.isEmu : Event → Bool
  | .emuAlloc => true
  | .emuClear => true
  | .emuRender _ => true
  | .emuRestart => true
  | .emuShutdown => true
  | .emuUpload => true
  | .emuFree => true
  | .emuSetCompare _ => true
  | .emuSetFifoFull _ => true
  | _ => false

/-- Is the event a tag emission? -/
def Event.isTagEmit : Event → Bool
  | .tagEmit _ _ => true
  | _ => false

/-- Is the event the container-parser load? -/
def Event.isPsfLoad : Event → Bool
  | .psfLoad => true
  | _ => false

/-- Is the event a duration report (either unit)? -/
def Event.isDurationReport : Event → Bool
  | .durationReportMS _ => true
  | .durationReportS _ => true
  | _ => false

/-- Is the event a warning log? -/
def Event.isLogWarning : Event → Bool
  | .logWarning => true
  | _ => false

/-- Is the event the leftover debug print of the fade-variant scan? -/
def Event.isPrintf : Event → Bool
  | .printfDebug => true
  | _ => false

/-- Is the event the host decoder session start? -/
def Event.isDecoderInit : Event → Bool
  | .decoderInit _ _ => true
  | _ => false

/-- Is the event an audio buffer submission? -/
def Event.isSubmitData : Event → Bool
  | .submitData _ => true
  | _ => false

/-- The effects the scan path is claimed to be limited to. -/
def scanAllowed (e : Event) : Bool := e.isPsfLoad || e.isTagEmit || e.isDurationReport

/-- The command the host hands back after a buffer submission. -/
inductive Cmd
  | cnone
  | seek (target : ℚ)
  | stop
deriving DecidableEq

/-- The environment of one iteration of the fade-variant streaming loop:
whether the render failed, the rendered buffer, the host timestamp
observed during the iteration and the command returned by the host. -/
structure IterIn where
  render_error : Bool
  buf : List ℤ
  timestamp : ℚ
  cmd : Cmd
deriving DecidableEq

/-- Mutable state of the fade-variant streaming loop: the `total_length`
variable and whether the loop is still running. -/
structure LoopState where
  total_length : ℚ
  running : Bool
deriving DecidableEq

/-- One iteration of the fade-variant streaming loop of
`usf_file_decode`: render, fade, submit, stop-at-length test, then the
command (seek handling included). -/
def decode_iter (fade track_length : ℚ) (rate : ℤ) (s : LoopState) (inp : IterIn) :
    LoopState × List Event :=
  if s.running = false then (s, [])
  else if inp.render_error then
    ({ s with running := false }, [Event.emuRender 2048, Event.logWarning])
  else
    let buf2 := apply_fade fade track_length s.total_length inp.timestamp inp.buf
    let evs := [Event.emuRender 2048, Event.submitData buf2]
    if 0 ≤ s.total_length ∧ s.total_length + 2 < inp.timestamp then
      ({ s with running := false }, evs)
    else
      match inp.cmd with
      | Cmd.stop => ({ s with running := false }, evs)
      | Cmd.cnone => (s, evs)
      | Cmd.seek target =>
        ({ total_length := if track_length < inp.timestamp then (-1 : ℚ) else s.total_length,
           running := true },
         evs ++ [Event.emuRestart, Event.emuRender (seek_frames_to_throw rate target),
                 Event.cmdFinished, Event.timestampSet (seek_new_time rate target)])

/-- Run the fade-variant streaming loop over a list of iteration
environments, collecting the emitted events. -/
def decode_loop (fade track_length : ℚ) (rate : ℤ) :
    LoopState → List IterIn → LoopState × List Event
  | s, [] => (s, [])
  | s, i :: rest =>
    let r := decode_iter fade track_length rate s i
    let r2 := decode_loop fade track_length rate r.1 rest
    (r2.1, r.2 ++ r2.2)

/-- The successive loop states reached after each iteration. -/
def loop_states (fade track_length : ℚ) (rate : ℤ) :
    LoopState → List IterIn → List LoopState
  | _, [] => []
  | s, i :: rest =>
    let s2 := (decode_iter fade track_length rate s i).1
    s2 :: loop_states fade track_length rate s2 rest

/-- `usf_file_decode`, fade-variant revision, as the list of external
actions it performs, given the two `psf_load` return values, the number
of sections the loader callback uploaded during the second load, the
parsed lengths, the probed sample rate and the loop environments. -/
def usf_file_decode_cxx (tags_version state_version : ℤ) (nupload : ℕ)
    (enable_compare enable_fifo_full : Bool)
    (length fade : ℚ) (rate : ℤ) (iters : List IterIn) : List Event :=
  if tags_version ≠ 0x21 ∨ state_version ≤ 0 then
    ([Event.emuAlloc, Event.emuClear, Event.psfLoad, Event.psfLoad]
      ++ List.replicate nupload Event.emuUpload) ++ [Event.logWarning, Event.emuFree]
  else
    ([Event.emuAlloc, Event.emuClear, Event.psfLoad, Event.psfLoad]
      ++ List.replicate nupload Event.emuUpload)
      ++ [Event.emuSetCompare enable_compare, Event.emuSetFifoFull enable_fifo_full,
          Event.emuRender 0, Event.decoderInit rate (track_lengths length fade)]
      ++ (decode_loop fade length rate ⟨track_lengths length fade, true⟩ iters).2
      ++ [Event.emuShutdown, Event.emuFree]

/-- Mutable state of the millisecond-revision streaming loop: the
`decoded_frames` counter and whether the loop is still running. -/
structure MsLoopState where
  decoded_frames : ℤ
  running : Bool
deriving DecidableEq

/-- One iteration of the millisecond-revision streaming loop of
`usf_file_decode`: render, count the decoded frames, submit, test the
stop condition, then the command (seek handling included). -/
def ms_decode_iter (length rate total_frames : ℤ) (s : MsLoopState) (inp : IterIn) :
    MsLoopState × List Event :=
  if s.running = false then (s, [])
  else if inp.render_error then
    ({ s with running := false }, [Event.emuRender 2048, Event.logWarning])
  else
    let evs := [Event.emuRender 2048, Event.submitData inp.buf]
    if ms_stop_check length (s.decoded_frames + 2048) total_frames then
      (⟨s.decoded_frames + 2048, false⟩, evs)
    else
      match inp.cmd with
      | Cmd.stop => (⟨s.decoded_frames + 2048, false⟩, evs)
      | Cmd.cnone => (⟨s.decoded_frames + 2048, true⟩, evs)
      | Cmd.seek target =>
        (⟨seek_frames_ms_rev rate target, true⟩,
         evs ++ [Event.emuRestart, Event.emuRender (seek_frames_ms_rev rate target),
                 Event.cmdFinished,
                 Event.timestampSet ((seek_timestamp_ms_rev target : ℤ) : ℚ)])

/-- Run the millisecond-revision streaming loop over a list of
iteration environments, collecting the emitted events. -/
def ms_decode_loop (length rate total_frames : ℤ) :
    MsLoopState → List IterIn → MsLoopState × List Event
  | s, [] => (s, [])
  | s, i :: rest =>
    let r := ms_decode_iter length rate total_frames s i
    let r2 := ms_decode_loop length rate total_frames r.1 rest
    (r2.1, r.2 ++ r2.2)

/-- `usf_file_decode`, millisecond revision, as the list of external
actions it performs: a single `psf_load` with expected sub-format 0x21
(during which the loader callback may upload sections); a negative
version logs a warning and returns early, otherwise the engine flags
are applied, the sample rate probed, the decoder started with
`SongTime(lengths.length)` and the streaming loop run with
`total_frames = loop ? 0 : (length*sample_rate)/1000`. -/
def usf_file_decode_ms (psf_version : ℤ) (nupload : ℕ)
    (enable_compare enable_fifo_full : Bool)
    (length rate : ℤ) (iters : List IterIn) : List Event :=
  if psf_version < 0 then
    ([Event.emuAlloc, Event.emuClear, Event.psfLoad]
      ++ List.replicate nupload Event.emuUpload) ++ [Event.logWarning, Event.emuFree]
  else
    ([Event.emuAlloc, Event.emuClear, Event.psfLoad]
      ++ List.replicate nupload Event.emuUpload)
      ++ [Event.emuSetCompare enable_compare, Event.emuSetFifoFull enable_fifo_full,
          Event.emuRender 0, Event.decoderInit rate ((length : ℤ) : ℚ)]
      ++ (ms_decode_loop length rate (if ms_loop length then 0 else length * rate / 1000)
            ⟨0, true⟩ iters).2
      ++ [Event.emuShutdown, Event.emuFree]

/-- The duration record of the millisecond revision (`unsigned long`
fields, both defaulting to 0). -/
structure UsfLengths_ms where
  length : ℤ
  fade : ℤ
deriving DecidableEq

/-- The duration record of the fade-variant revision (`double` fields,
length defaulting to -1, fade to 0). -/
structure UsfLengths_cxx where
  length : ℚ
  fade : ℚ
deriving DecidableEq

/-- `set_length_from_tags`, millisecond revision. -/
def set_length_from_tags_ms (L : UsfLengths_ms) (name value : String) : UsfLengths_ms :=
  if ("length") = name then { L with length := u64 (get_length_from_string value.data) }
  else if ("fade") = name then { L with fade := u64 (get_length_from_string value.data) }
  else L

/-- `set_length_from_tags`, fade-variant revision. -/
def set_length_from_tags_cxx (L : UsfLengths_cxx) (name value : String) : UsfLengths_cxx :=
  if ("length") = name then { L with length := get_length_from_string_cxx value.data }
  else if ("fade") = name then { L with fade := get_length_from_string_cxx value.data }
  else L

/-- The fixed tag table `usf_tags` of the millisecond revision. -/
def usf_tags : List (String × TagType) :=
  [(("title"), TagType.TAG_TITLE), (("artist"), TagType.TAG_ARTIST),
   (("composer"), TagType.TAG_COMPOSER), (("game"), TagType.TAG_ALBUM),
   (("year"), TagType.TAG_DATE), (("genre"), TagType.TAG_GENRE),
   (("track"), TagType.TAG_TRACK)]

/-- `tag_table_lookup`: walk the table until a matching name, otherwise
`TAG_NUM_OF_ITEM_TYPES`. -/
def tag_table_lookup : List (String × TagType) → String → TagType
  | [], _ => TagType.TAG_NUM_OF_ITEM_TYPES
  | p :: rest, name => if p.1 = name then p.2 else tag_table_lookup rest name

/-- `usf_tags_target`, millisecond revision: emit the mapped tag kind on
a table hit, otherwise fall through to length/fade extraction. -/
def usf_tags_target_ms (L : UsfLengths_ms) (name value : String) : UsfLengths_ms × List Event :=
  let t := tag_table_lookup usf_tags name
  if t ≠ TagType.TAG_NUM_OF_ITEM_TYPES then (L, [Event.tagEmit t value])
  else (set_length_from_tags_ms L name value, [])

/-- `usf_set_tag` of the fade-variant revision: emit one tag when the
name matches the field. -/
def usf_set_tag (field name value : String) (t : TagType) : Option Event :=
  if name = field then some (Event.tagEmit t value) else none

/-- The short-circuit `usf_set_tag` chain of the fade-variant
`usf_tags_target`. -/
def cxx_tag_chain (name value : String) : Option Event :=
  (usf_set_tag ("title") name value TagType.TAG_TITLE).orElse fun _ =>
  (usf_set_tag ("artist") name value TagType.TAG_ARTIST).orElse fun _ =>
  (usf_set_tag ("composer") name value TagType.TAG_COMPOSER).orElse fun _ =>
  (usf_set_tag ("game") name value TagType.TAG_ALBUM).orElse fun _ =>
  (usf_set_tag ("year") name value TagType.TAG_DATE).orElse fun _ =>
  (usf_set_tag ("genre") name value TagType.TAG_GENRE).orElse fun _ =>
  usf_set_tag ("track") name value TagType.TAG_TRACK

/-- `usf_tags_target`, fade-variant revision: run the tag chain, then
always run length/fade extraction. -/
def usf_tags_target_cxx (L : UsfLengths_cxx) (name value : String) :
    UsfLengths_cxx × List Event :=
  (set_length_from_tags_cxx L name value, (cxx_tag_chain name value).toList)

/-- Fold the millisecond-revision tag callback over the metadata pairs
the container parser reports, collecting emitted events. -/
def scan_fold_ms : List (String × String) → UsfLengths_ms → UsfLengths_ms × List Event
  | [], L => (L, [])
  | p :: rest, L =>
    let r := usf_tags_target_ms L p.1 p.2
    let r2 := scan_fold_ms rest r.1
    (r2.1, r.2 ++ r2.2)

/-- Fold the fade-variant tag callback over the metadata pairs. -/
def scan_fold_cxx : List (String × String) → UsfLengths_cxx → UsfLengths_cxx × List Event
  | [], L => (L, [])
  | p :: rest, L =>
    let r := usf_tags_target_cxx L p.1 p.2
    let r2 := scan_fold_cxx rest r.1
    (r2.1, r.2 ++ r2.2)

/-- Result of a scan: the boolean return value and the external actions
performed. -/
structure ScanOut where
  ok : Bool
  events : List Event
deriving DecidableEq

/-- `usf_scan_file`, millisecond revision: load (running the tag
callback), fail on a negative version, otherwise report the duration as
`SongTime::FromMS(lengths.length)`. -/
def usf_scan_file_ms (version : ℤ) (prs : List (String × String)) : ScanOut :=
  if version < 0 then ⟨false, Event.psfLoad :: (scan_fold_ms prs ⟨0, 0⟩).2⟩
  else ⟨true, Event.psfLoad :: ((scan_fold_ms prs ⟨0, 0⟩).2
    ++ [Event.durationReportMS (scan_fold_ms prs ⟨0, 0⟩).1.length])⟩

/-- `usf_scan_file`, fade-variant revision: load, fail on a negative
version, otherwise print the duration (leftover `printf`) and report
`SongTime::FromS(track_lengths(length, fade))`. -/
def usf_scan_file_cxx (version : ℤ) (prs : List (String × String)) : ScanOut :=
  if version < 0 then ⟨false, Event.psfLoad :: (scan_fold_cxx prs ⟨-1, 0⟩).2⟩
  else ⟨true, Event.psfLoad :: ((scan_fold_cxx prs ⟨-1, 0⟩).2 ++ [Event.printfDebug,
    Event.durationReportS (track_lengths (scan_fold_cxx prs ⟨-1, 0⟩).1.length
      (scan_fold_cxx prs ⟨-1, 0⟩).1.fade)])⟩

/-- `usf_loader`: reject any non-null `exe` payload of positive size,
otherwise upload the reserved section. Returns the status code and the
list of sections uploaded to the emulator. -/
def usf_loader (upload_status : ℤ) (exe : Option (List ℤ)) (exe_size : ℕ)
    (reserved : List ℤ) : ℤ × List (List ℤ) :=
  if exe.isSome ∧ 0 < exe_size then (-1, [])
  else (upload_status, [reserved])

/-! ## Helper lemmas -/

/-- An invalid character makes the scanning loop return `none`. -/
theorem parse_chars_none_of_invalid (l : List Char) (s : ParseState)
    (h : ∃ c ∈ l, is_time_char c = false) : parse_chars l s = none := by
  induction l generalizing s with
  | nil => rcases h with ⟨c, hc, _⟩; cases hc
  | cons c rest ih =>
    rcases h with ⟨d, hd, hdv⟩
    rcases List.mem_cons.mp hd with rfl | hdrest
    · have hstep : parse_step s d = none := by
        unfold parse_step
        simp only [is_time_char, Bool.or_eq_false_iff, decide_eq_false_iff_not] at hdv
        rw [if_neg (by simp [hdv.1.1]), if_neg hdv.1.2, if_neg hdv.2]
      simp [parse_chars, hstep]
    · cases hstep2 : parse_step s c with
      | none => simp [parse_chars, hstep2]
      | some s2 => simp [parse_chars, hstep2, ih s2 ⟨d, hdrest, hdv⟩]

/-- Any string containing an invalid character parses to the sentinel. -/
theorem get_length_invalid (l : List Char)
    (h : ∃ c ∈ l, is_time_char c = false) : get_length_from_string l = -1 := by
  have : parse_run l = none := by
    apply parse_chars_none_of_invalid
    rcases h with ⟨c, hc, hcv⟩
    exact ⟨c, List.mem_reverse.mpr hc, hcv⟩
  simp [get_length_from_string, this]

/-- On valid characters the exact-arithmetic loop succeeds and keeps all
state components non-negative. -/
theorem parse_chars_exact_nonneg (l : List Char) (s : ParseState)
    (hl : ∀ c ∈ l, is_time_char c = true)
    (h1 : 0 ≤ s.total) (h2 : 0 ≤ s.final_mult) (h3 : 0 ≤ s.local_mult) (h4 : 0 ≤ s.acc) :
    ∃ s2, parse_chars_exact l s = some s2 ∧
      0 ≤ s2.total ∧ 0 ≤ s2.final_mult ∧ 0 ≤ s2.local_mult ∧ 0 ≤ s2.acc := by
  induction l generalizing s with
  | nil => exact ⟨s, rfl, h1, h2, h3, h4⟩
  | cons c rest ih =>
    have hc := hl c (List.mem_cons_self c rest)
    have hrest : ∀ d ∈ rest, is_time_char d = true :=
      fun d hd => hl d (List.mem_cons_of_mem c hd)
    simp only [is_time_char, Bool.or_eq_true, decide_eq_true_eq] at hc
    rcases hc with (hdig | hdot) | hcol
    · have hd0 : (('0'.toNat : ℤ)) ≤ (c.toNat : ℤ) := by
        simp only [is_digit_char, Bool.and_eq_true, decide_eq_true_eq] at hdig
        exact_mod_cast Nat.cast_le.mpr hdig.1
      have hstep : parse_step_exact s c =
          some { s with
            acc := s.acc + ((c.toNat : ℤ) - ('0'.toNat : ℤ)) * s.local_mult,
            local_mult := s.local_mult * 10 } := by
        unfold parse_step_exact; rw [if_pos hdig]
      rw [parse_chars_exact, hstep]
      exact ih _ hrest h1 h2 (by positivity)
        (add_nonneg h4 (mul_nonneg (by linarith) h3))
    · have hstep : parse_step_exact s c =
          some { s with local_mult := 1, total := s.total + s.acc * 1, acc := 0 } := by
        unfold parse_step_exact
        rw [if_neg, if_pos hdot]
        intro hd
        simp only [hdot, is_digit_char, Bool.and_eq_true, decide_eq_true_eq] at hd
        exact absurd hd.1 (by decide)
      rw [parse_chars_exact, hstep]
      exact ih _ hrest (by simpa using add_nonneg h1 h4) h2 (by norm_num) le_rfl
    · have hstep : parse_step_exact s c =
          some { s with local_mult := 1, total := s.total + s.acc * 1000,
                        final_mult := 60000, acc := 0 } := by
        unfold parse_step_exact
        rw [if_neg, if_neg, if_pos hcol]
        · intro hd; rw [hcol] at hd; exact absurd hd (by decide)
        · intro hd
          simp only [hcol, is_digit_char, Bool.and_eq_true, decide_eq_true_eq] at hd
          exact absurd hd.2 (by decide)
      rw [parse_chars_exact, hstep]
      exact ih _ hrest (add_nonneg h1 (by positivity)) (by norm_num) (by norm_num) le_rfl

/-- With ideal arithmetic, a valid-character string always parses to a
non-negative number of milliseconds. -/
theorem get_length_exact_nonneg (l : List Char)
    (hl : ∀ c ∈ l, is_time_char c = true) : 0 ≤ get_length_from_string_exact l := by
  have hl2 : ∀ c ∈ l.reverse, is_time_char c = true :=
    fun c hc => hl c (List.mem_reverse.mp hc)
  obtain ⟨s2, hrun, hh1, hh2, _, hh4⟩ :=
    parse_chars_exact_nonneg l.reverse ⟨0, 1000, 1, 0⟩ hl2
      (by norm_num) (by norm_num) (by norm_num) (by norm_num)
  unfold get_length_from_string_exact
  rw [hrun]
  exact add_nonneg hh1 (mul_nonneg hh2 hh4)

/-- The `total_length = -1` state of the streaming loop is absorbing: no
iteration ever assigns anything else to `total_length`. -/
theorem decode_iter_total_absorb (fade track : ℚ) (rate : ℤ) (s : LoopState) (inp : IterIn)
    (h : s.total_length = -1) : (decode_iter fade track rate s inp).1.total_length = -1 := by
  unfold decode_iter
  split
  · exact h
  · split
    · exact h
    · dsimp only
      split
      · exact h
      · split
        · exact h
        · exact h
        · dsimp only
          split
          · rfl
          · exact h

/-- Once `total_length = -1`, every later state of the loop still has
`total_length = -1`. -/
theorem loop_states_total_neg (fade track : ℚ) (rate : ℤ) :
    ∀ (rest : List IterIn) (s : LoopState), s.total_length = -1 →
      ∀ s2 ∈ loop_states fade track rate s rest, s2.total_length = -1 := by
  intro rest
  induction rest with
  | nil => intro s _ s2 h2; simp [loop_states] at h2
  | cons i tail ih =>
    intro s h s2 h2
    rw [loop_states] at h2
    rcases List.mem_cons.mp h2 with rfl | h3
    · exact decode_iter_total_absorb fade track rate s i h
    · exact ih _ (decode_iter_total_absorb fade track rate s i h) s2 h3

/-- The millisecond-revision tag callback only ever emits tag events. -/
theorem usf_tags_target_ms_tagEmit (L : UsfLengths_ms) (name value : String) :
    ((usf_tags_target_ms L name value).2).all Event.isTagEmit = true := by
  unfold usf_tags_target_ms
  dsimp only
  split
  · rfl
  · rfl

/-- The fade-variant tag callback only ever emits tag events. -/
theorem usf_tags_target_cxx_tagEmit (L : UsfLengths_cxx) (name value : String) :
    ((usf_tags_target_cxx L name value).2).all Event.isTagEmit = true := by
  unfold usf_tags_target_cxx cxx_tag_chain usf_set_tag
  dsimp only
  repeat' split
  all_goals rfl

/-- All events of the millisecond-revision scan fold are tag emissions. -/
theorem scan_fold_ms_tagEmit :
    ∀ (prs : List (String × String)) (L : UsfLengths_ms),
      ((scan_fold_ms prs L).2).all Event.isTagEmit = true := by
  intro prs
  induction prs with
  | nil => intro L; rfl
  | cons p rest ih =>
    intro L
    rw [scan_fold_ms]
    dsimp only
    rw [List.all_append]
    rw [usf_tags_target_ms_tagEmit, ih]
    rfl

/-- All events of the fade-variant scan fold are tag emissions. -/
theorem scan_fold_cxx_tagEmit :
    ∀ (prs : List (String × String)) (L : UsfLengths_cxx),
      ((scan_fold_cxx prs L).2).all Event.isTagEmit = true := by
  intro prs
  induction prs with
  | nil => intro L; rfl
  | cons p rest ih =>
    intro L
    rw [scan_fold_cxx]
    dsimp only
    rw [List.all_append]
    rw [usf_tags_target_cxx_tagEmit, ih]
    rfl

/-- A list of tag emissions satisfies any predicate that holds on tag
emissions. -/
theorem all_of_all_tagEmit (l : List Event) (p : Event → Bool)
    (hl : l.all Event.isTagEmit = true) (hp : ∀ t v, p (Event.tagEmit t v) = true) :
    l.all p = true := by
  rw [List.all_eq_true] at hl ⊢
  intro e he
  have h2 := hl e he
  cases e with
  | tagEmit t v => exact hp t v
  | psfLoad => exact absurd h2 (by decide)
  | logWarning => exact absurd h2 (by decide)
  | decoderInit r q => exact absurd h2 (by simp [Event.isTagEmit])
  | submitData b => exact absurd h2 (by simp [Event.isTagEmit])
  | emuAlloc => exact absurd h2 (by decide)
  | emuClear => exact absurd h2 (by decide)
  | emuRender f => exact absurd h2 (by simp [Event.isTagEmit])
  | emuRestart => exact absurd h2 (by decide)
  | emuShutdown => exact absurd h2 (by decide)
  | emuUpload => exact absurd h2 (by decide)
  | emuFree => exact absurd h2 (by decide)
  | emuSetCompare b => exact absurd h2 (by simp [Event.isTagEmit])
  | emuSetFifoFull b => exact absurd h2 (by simp [Event.isTagEmit])
  | cmdFinished => exact absurd h2 (by decide)
  | timestampSet t => exact absurd h2 (by simp [Event.isTagEmit])
  | durationReportMS m => exact absurd h2 (by simp [Event.isTagEmit])
  | durationReportS q => exact absurd h2 (by simp [Event.isTagEmit])
  | printfDebug => exact absurd h2 (by decide)

/-- A replicated upload list satisfies any predicate holding on
uploads. -/
theorem replicate_upload_all (n : ℕ) (p : Event → Bool)
    (hp : p Event.emuUpload = true) :
    (List.replicate n Event.emuUpload).all p = true := by
  rw [List.all_eq_true]
  intro e he
  rw [List.eq_of_mem_replicate he]
  exact hp

/-! ## Claim theorems -/

/-- C1 counterexample: the millisecond-revision time-string parser maps
`"1:30.5"` to 90005 ms (not 90500 ms: fraction digits accumulate as
literal milliseconds) and `"2:00:00"` to 120000 ms (not 7200000 ms:
every colon sets the final multiplier to minutes, there is no hours
unit), refuting the claimed values. -/
theorem claim_C1_counterexample :
    get_length_from_string (("1:30.5").data) = 90005 ∧ (90005 : ℤ) ≠ 90500 ∧
    get_length_from_string (("2:00:00").data) = 120000 ∧ (120000 : ℤ) ≠ 7200000 :=
  ⟨by decide, by decide, by decide, by decide⟩

/-- C1 (amended): the millisecond-revision parser maps `"90"` to
90000 ms, `"1:30"` to 90000 ms, `"1:30.5"` to 90005 ms, `"2:00:00"` to
120000 ms, and returns the error sentinel -1 for any input containing a
character that is neither a digit, '.', nor ':'. -/
theorem claim_C1_amended :
    get_length_from_string (("90").data) = 90000 ∧
    get_length_from_string (("1:30").data) = 90000 ∧
    get_length_from_string (("1:30.5").data) = 90005 ∧
    get_length_from_string (("2:00:00").data) = 120000 ∧
    ∀ l : List Char, (∃ c ∈ l, is_time_char c = false) → get_length_from_string l = -1 :=
  ⟨by decide, by decide, by decide, by decide, fun l h => get_length_invalid l h⟩

/-- C1 witness: the amended theorem applied to the concrete invalid
input `"1x30"`. -/
theorem claim_C1_witness : get_length_from_string (("1x30").data) = -1 :=
  claim_C1_amended.2.2.2.2 (("1x30").data) ⟨'x', by decide, by decide⟩

/-- C9 counterexample: `".4294967295"` consists only of digits and '.',
yet with the code's 32-bit `int` arithmetic the accumulated value wraps
to -1 and the parser returns the -1 error sentinel. -/
theorem claim_C9_counterexample :
    ((".4294967295").data.all is_time_char = true) ∧
    get_length_from_string ((".4294967295").data) = -1 :=
  ⟨by decide, by decide⟩

/-- C9 (amended): read with exact (unbounded) integer arithmetic, the
parser returns a non-negative value — never the -1 sentinel — on every
string of digits, '.' and ':', and the empty string parses to 0 (under
both exact and 32-bit arithmetic); under the code's 32-bit `int`
arithmetic, overflow on long digit runs can drive the result negative
and even to the -1 sentinel itself. -/
theorem claim_C9_amended :
    (∀ l : List Char, (∀ c ∈ l, is_time_char c = true) →
      0 ≤ get_length_from_string_exact l ∧ get_length_from_string_exact l ≠ -1) ∧
    get_length_from_string_exact [] = 0 ∧ get_length_from_string [] = 0 := by
  refine ⟨fun l hl => ?_, by decide, by decide⟩
  have h := get_length_exact_nonneg l hl
  exact ⟨h, by intro hc; rw [hc] at h; norm_num at h⟩

/-- C9 witness: the amended theorem applied to the concrete valid input
`"1:30"`. -/
theorem claim_C9_witness :
    0 ≤ get_length_from_string_exact (("1:30").data) ∧
    get_length_from_string_exact (("1:30").data) ≠ -1 :=
  claim_C9_amended.1 (("1:30").data) (by decide)

/-- C2: with fade configured (`fade > 0`) and a computed end
(`total_length = len + fade ≥ 0`), once the timestamp passes the track
length every sample of the buffer is scaled by the linear gain
`1 - elapsed/fade` clamped below at 0; the gain is never negative, it is
exactly 1 at the point where remaining-to-end equals the fade length
(the fade branch is not even taken there, leaving the buffer
untouched), and exactly 0 at the computed end, where every sample is
attenuated to 0. -/
theorem claim_C2 (fade len : ℚ) (buf : List ℤ) (hf : 0 < fade) (ht : 0 ≤ len + fade) :
    (∀ ts, len < ts →
      apply_fade fade len (len + fade) ts buf
        = buf.map (fun sm : ℤ => c_trunc ((Int.cast sm : ℚ) * normalized_vol fade len ts))) ∧
    (∀ ts, 0 ≤ normalized_vol fade len ts) ∧
    normalized_vol fade len len = 1 ∧
    apply_fade fade len (len + fade) len buf = buf ∧
    normalized_vol fade len (len + fade) = 0 ∧
    apply_fade fade len (len + fade) (len + fade) buf = buf.map (fun _ => 0) := by
  have hvol0 : normalized_vol fade len (len + fade) = 0 := by
    unfold normalized_vol
    rw [add_sub_cancel_left, div_self hf.ne']
    norm_num
  refine ⟨?_, ?_, ?_, ?_, hvol0, ?_⟩
  · intro ts hts
    unfold apply_fade
    rw [if_pos ⟨hf, ht, hts⟩]
  · intro ts
    unfold normalized_vol
    dsimp only
    split
    · exact le_rfl
    · next h => exact not_lt.mp h
  · unfold normalized_vol
    rw [sub_self, zero_div]
    norm_num
  · unfold apply_fade
    rw [if_neg]
    rintro ⟨_, _, hc⟩
    exact absurd hc (lt_irrefl len)
  · unfold apply_fade
    rw [if_pos ⟨hf, ht, by linarith⟩, hvol0]
    simp only [mul_zero]
    rfl

/-- C2 witness: the theorem applied at fade = 2, track length = 3, with
a one-sample buffer at the final frame, which is attenuated to 0. -/
theorem claim_C2_witness : apply_fade 2 3 (3 + 2) (3 + 2) [1000] = [0] := by
  have h := (claim_C2 2 3 [1000] (by norm_num) (by norm_num)).2.2.2.2.2
  simpa using h

/-- C3 counterexample: in the millisecond revision a seek to the
fractional target 3/2 s at rate 44100 discards
`ToS(3/2)*rate = 1*44100 = 44100` frames, not the claimed
`round(3/2 * 44100) = 66150`: the truncation to whole seconds refutes
the round formula for fractional-second seek commands. -/
theorem claim_C3_counterexample :
    seek_frames_ms_rev 44100 (3 / 2) = 44100 ∧
    round (((3 : ℚ) / 2) * 44100) = 66150 ∧
    (44100 : ℤ) ≠ 66150 := by
  refine ⟨?_, ?_, by norm_num⟩
  · rw [seek_frames_ms_rev, song_time_to_s]
    have h1 : ⌊(3 : ℚ) / 2⌋ = 1 := by
      rw [Int.floor_eq_iff]
      constructor <;> norm_num
    rw [h1]
    norm_num
  · have h2 : ((3 : ℚ) / 2) * 44100 = ((66150 : ℤ) : ℚ) := by norm_num
    rw [h2, round_intCast]

/-- C3 (amended): in the fade-variant revision, a seek to time `T`
discards `floor(rate*T + 1/2) = round(rate*T)` frames and reports the
timestamp `frames/rate - 0.5` (the documented fixed correction); in the
millisecond revision the seek target `U` is first truncated to whole
seconds by `ToS()`, so the plugin discards `⌊U⌋*rate` frames — not
`round(U*rate)` — and reports the timestamp `⌊U⌋ = frames/rate`. -/
theorem claim_C3_amended (rate : ℤ) (T U : ℚ) (hr : 0 < rate) (_hT : 0 ≤ T) :
    seek_frames_to_throw rate T = round ((rate : ℚ) * T) ∧
    seek_new_time rate T
      = ((seek_frames_to_throw rate T : ℤ) : ℚ) / (rate : ℚ) - 1 / 2 ∧
    seek_frames_ms_rev rate U = ⌊U⌋ * rate ∧
    ((seek_timestamp_ms_rev U : ℤ) : ℚ)
      = ((seek_frames_ms_rev rate U : ℤ) : ℚ) / (rate : ℚ) := by
  have hrz : ((rate : ℤ) : ℚ) ≠ 0 := Int.cast_ne_zero.mpr hr.ne'
  refine ⟨?_, rfl, rfl, ?_⟩
  · rw [seek_frames_to_throw, round_eq]
  · rw [seek_timestamp_ms_rev, seek_frames_ms_rev, song_time_to_s]
    push_cast
    rw [mul_div_assoc, div_self hrz, mul_one]

/-- C3 witness: the amended theorem applied at sample rate 44100 and
fractional target 3/2 s in both revisions. -/
theorem claim_C3_witness :
    seek_frames_to_throw 44100 (3 / 2) = round ((44100 : ℚ) * (3 / 2)) ∧
    ((seek_timestamp_ms_rev (3 / 2) : ℤ) : ℚ)
      = ((seek_frames_ms_rev 44100 (3 / 2) : ℤ) : ℚ) / ((44100 : ℤ) : ℚ) :=
  ⟨(claim_C3_amended 44100 (3 / 2) (3 / 2) (by norm_num) (by norm_num)).1,
   (claim_C3_amended 44100 (3 / 2) (3 / 2) (by norm_num) (by norm_num)).2.2.2⟩

/-- C10: the playback binary-payload callback returns -1 — aborting the
container load — whenever a non-null `exe` of positive size is supplied,
uploading nothing; in every case the only data it can upload to the
emulator is the reserved section. -/
theorem claim_C10 (st : ℤ) (exe : List ℤ) (n : ℕ) (res : List ℤ) (hn : 0 < n) :
    usf_loader st (some exe) n res = (-1, []) ∧
    ∀ (e : Option (List ℤ)) (m : ℕ) (r : List ℤ),
      (usf_loader st e m r).2 = [] ∨ (usf_loader st e m r).2 = [r] := by
  constructor
  · unfold usf_loader
    rw [if_pos ⟨rfl, hn⟩]
  · intro e m r
    unfold usf_loader
    split
    · left; rfl
    · right; rfl

/-- C10 witness: the theorem applied to a concrete 4-byte `exe`
payload. -/
theorem claim_C10_witness : usf_loader 0 (some [1]) 4 [2] = (-1, []) :=
  (claim_C10 0 [1] 4 [2] (by norm_num)).1

/-- C4: the fade-variant revision contradicts its own documentation
("-1 represents looping infinitely"): a `fade` tag of `"10"` parses to
10 s, so with no `length` tag (length stays -1)
`total_length = -1 + 10 = 9 ≥ 0`, and once the decoder timestamp passes
`total_length + 2 = 11` the streaming loop sets `running := false`
(natural stop) instead of looping — after which every later iteration
does nothing. The millisecond revision conforms: with `length = 0` its
stop test is false for every frame count, regardless of fade. -/
theorem claim_C4_bug :
    get_length_from_string_cxx (("10").data) = 10 ∧
    track_lengths (-1) 10 = 9 ∧
    (decode_iter 10 (-1) 44100 ⟨track_lengths (-1) 10, true⟩
        ⟨false, [], 12, Cmd.cnone⟩).1.running = false ∧
    (∀ inp : IterIn, decode_iter 10 (-1) 44100 ⟨9, false⟩ inp = (⟨9, false⟩, [])) ∧
    ∀ decoded total_frames : ℤ, ms_stop_check 0 decoded total_frames = false := by
  refine ⟨?_, by norm_num [track_lengths], ?_, ?_, fun d t => rfl⟩
  · have hrun : parse_run (("10").data) = some ⟨0, 1000, 100, 10⟩ := by decide
    have hz : Int.tdiv (i32 ((0 : ℤ) + i32 (1000 * 10))) 1000 = 10 := by decide
    unfold get_length_from_string_cxx
    rw [hrun]
    dsimp only
    rw [hz]
    norm_num
  · unfold decode_iter
    rw [if_neg (by simp), if_neg (by simp)]
    dsimp only
    rw [if_pos (by norm_num [track_lengths])]
  · intro inp
    unfold decode_iter
    rw [if_pos rfl]

/-- C5 counterexample: a seek command whose target (4 s) lies inside the
fade window (track length 3, fade 2, end 5) but which arrives while the
current timestamp (1 s) is still before the window leaves `total_length`
at 5: the code keys the disabling on the current position, not on the
seek target, so fade and the stop-at-length cap stay enabled and the
claim as stated fails. -/
theorem claim_C5_counterexample :
    (decode_iter 2 3 44100 ⟨5, true⟩ ⟨false, [], 1, Cmd.seek 4⟩).1.total_length = 5 ∧
    (3 : ℚ) < 4 ∧ (4 : ℚ) ≤ 5 ∧ (5 : ℚ) ≠ -1 := by
  refine ⟨?_, by norm_num, by norm_num, by norm_num⟩
  unfold decode_iter
  rw [if_neg (by simp), if_neg (by simp)]
  dsimp only
  rw [if_neg (by norm_num)]
  dsimp only
  rw [if_neg (by norm_num)]

/-- C5 (amended): the disabling is keyed to the current playback
position, not to the seek target: if a seek command arrives while the
current decoder timestamp is past the track length (inside the fade
window), the iteration sets `total_length` to -1 and in every
subsequent state of the session `total_length` remains -1, the fade
attenuation is disabled (`apply_fade` leaves every buffer untouched)
and the stop-at-length test can never fire again — irreversibly; if the
seek arrives while the position is not past the track length,
`total_length` is left unchanged no matter where the target lies. -/
theorem claim_C5_amended (fade track : ℚ) (rate : ℤ) (s : LoopState) (inp : IterIn)
    (rest : List IterIn) (T : ℚ)
    (hrun : s.running = true) (hre : inp.render_error = false)
    (hnostop : ¬(0 ≤ s.total_length ∧ s.total_length + 2 < inp.timestamp))
    (hcmd : inp.cmd = Cmd.seek T) :
    (track < inp.timestamp →
      (decode_iter fade track rate s inp).1.total_length = -1 ∧
      ∀ s2 ∈ (decode_iter fade track rate s inp).1 ::
          loop_states fade track rate (decode_iter fade track rate s inp).1 rest,
        s2.total_length = -1 ∧
        (∀ ts buf, apply_fade fade track s2.total_length ts buf = buf) ∧
        ∀ inp2 : IterIn, ¬(0 ≤ s2.total_length ∧ s2.total_length + 2 < inp2.timestamp)) ∧
    (¬track < inp.timestamp →
      (decode_iter fade track rate s inp).1.total_length = s.total_length) := by
  constructor
  · intro hts
    have h1 : (decode_iter fade track rate s inp).1.total_length = -1 := by
      unfold decode_iter
      rw [if_neg (by simp [hrun]), if_neg (by simp [hre])]
      dsimp only
      rw [if_neg hnostop, hcmd]
      dsimp only
      rw [if_pos hts]
    refine ⟨h1, ?_⟩
    intro s2 h2
    have hneg : s2.total_length = -1 := by
      rcases List.mem_cons.mp h2 with rfl | h3
      · exact h1
      · exact loop_states_total_neg fade track rate rest _ h1 s2 h3
    refine ⟨hneg, ?_, ?_⟩
    · intro ts buf
      rw [hneg]
      unfold apply_fade
      rw [if_neg]
      rintro ⟨_, hc, _⟩
      norm_num at hc
    · intro inp2
      rw [hneg]
      rintro ⟨hc, _⟩
      norm_num at hc
  · intro hts
    unfold decode_iter
    rw [if_neg (by simp [hrun]), if_neg (by simp [hre])]
    dsimp only
    rw [if_neg hnostop, hcmd]
    dsimp only
    rw [if_neg hts]

/-- C5 witness: the amended theorem applied at a concrete seek arriving
inside the fade window (track length 3, fade 2, current timestamp 4,
seek target 1 s). -/
theorem claim_C5_witness :
    (decode_iter 2 3 44100 ⟨5, true⟩ ⟨false, [], 4, Cmd.seek 1⟩).1.total_length = -1 :=
  ((claim_C5_amended 2 3 44100 ⟨5, true⟩ ⟨false, [], 4, Cmd.seek 1⟩ [] 1 rfl rfl
    (by norm_num) rfl).1 (by norm_num)).1

/-- C6 counterexample: with `length = "1:30"` and `fade = "5"`, the
millisecond-revision scan reports a duration of 90000 ms — the parsed
length alone — not the claimed length-plus-fade total of 95000 ms. -/
theorem claim_C6_counterexample :
    (usf_scan_file_ms 0x21 [(("length"), ("1:30")), (("fade"), ("5"))]).events
      = [Event.psfLoad, Event.durationReportMS 90000] ∧
    u64 (get_length_from_string (("1:30").data)) = 90000 ∧
    u64 (get_length_from_string (("5").data)) = 5000 ∧
    (90000 : ℤ) ≠ 90000 + 5000 :=
  ⟨by decide, by decide, by decide, by decide⟩

/-- C6 (amended): on a successful scan the fade-variant revision reports
duration = parsed length + parsed fade (seconds; length defaults to -1,
fade to 0) while the millisecond revision reports the parsed length
alone (milliseconds; fade excluded, 0 when absent); in both revisions
every metadata key matched by the fixed tag table is emitted as its
mapped tag kind. -/
theorem claim_C6_amended (v : ℤ) (hv : 0 ≤ v) (prs : List (String × String))
    (p : String × TagType) (hp : p ∈ usf_tags) (Lm : UsfLengths_ms) (Lc : UsfLengths_cxx)
    (value lv fv : String) :
    (∃ evs, (usf_scan_file_ms v prs).events
        = Event.psfLoad :: (evs
            ++ [Event.durationReportMS (scan_fold_ms prs ⟨0, 0⟩).1.length])
      ∧ evs.all Event.isTagEmit = true) ∧
    (∃ evs, (usf_scan_file_cxx v prs).events
        = Event.psfLoad :: (evs ++ [Event.printfDebug,
            Event.durationReportS (track_lengths (scan_fold_cxx prs ⟨-1, 0⟩).1.length
              (scan_fold_cxx prs ⟨-1, 0⟩).1.fade)])
      ∧ evs.all Event.isTagEmit = true) ∧
    (scan_fold_ms [(("length"), lv), (("fade"), fv)] ⟨0, 0⟩).1.length
      = u64 (get_length_from_string lv.data) ∧
    (scan_fold_cxx [(("length"), lv), (("fade"), fv)] ⟨-1, 0⟩).1.length
      = get_length_from_string_cxx lv.data ∧
    (scan_fold_cxx [(("length"), lv), (("fade"), fv)] ⟨-1, 0⟩).1.fade
      = get_length_from_string_cxx fv.data ∧
    (usf_tags_target_ms Lm p.1 value).2 = [Event.tagEmit p.2 value] ∧
    (usf_tags_target_cxx Lc p.1 value).2 = [Event.tagEmit p.2 value] := by
  refine ⟨⟨(scan_fold_ms prs ⟨0, 0⟩).2, ?_, scan_fold_ms_tagEmit prs ⟨0, 0⟩⟩,
          ⟨(scan_fold_cxx prs ⟨-1, 0⟩).2, ?_, scan_fold_cxx_tagEmit prs ⟨-1, 0⟩⟩,
          rfl, rfl, rfl, ?_, ?_⟩
  · unfold usf_scan_file_ms
    rw [if_neg (not_lt.mpr hv)]
  · unfold usf_scan_file_cxx
    rw [if_neg (not_lt.mpr hv)]
  · fin_cases hp <;> rfl
  · fin_cases hp <;> rfl

/-- C6 witness: the amended theorem applied at the concrete key
`"title"`, emitted as the title tag kind. -/
theorem claim_C6_witness :
    (usf_tags_target_ms ⟨0, 0⟩ ("title") ("X")).2
      = [Event.tagEmit TagType.TAG_TITLE ("X")] :=
  (claim_C6_amended 0 le_rfl [] (("title"), TagType.TAG_TITLE) (by decide) ⟨0, 0⟩
    ⟨-1, 0⟩ ("X") ("") ("")).2.2.2.2.2.1

/-- C7 counterexample: on a failed load the scan path returns false but
logs no warning, contradicting the claim that every failing decode or
scan invocation logs one. -/
theorem claim_C7_counterexample :
    (usf_scan_file_ms (-1) []).ok = false ∧
    Event.logWarning ∉ (usf_scan_file_ms (-1) []).events ∧
    Event.logWarning ∉ (usf_scan_file_cxx (-1) []).events :=
  ⟨by decide, by decide, by decide⟩

/-- C7 (amended): in both revisions, when the container parser reports a
sub-format other than 0x21 or a negative code (in the millisecond
revision the mismatch surfaces as the negative return of its single
`psf_load` call), the decode path logs a warning and returns early — the
host decoder is never started and no audio buffer is submitted; the
scan path returns false with no duration reported (and without
logging). -/
theorem claim_C7 (tv sv : ℤ) (h : tv ≠ 0x21 ∨ sv < 0) (nup : ℕ) (ec ef : Bool)
    (length fade : ℚ) (rate : ℤ) (iters : List IterIn)
    (pv : ℤ) (hpv : pv < 0) (nup2 : ℕ) (ec2 ef2 : Bool) (len2 rate2 : ℤ)
    (iters2 : List IterIn)
    (v : ℤ) (hv : v < 0) (prs : List (String × String)) :
    ((usf_file_decode_cxx tv sv nup ec ef length fade rate iters).all
      (fun e => !e.isDecoderInit && !e.isSubmitData)) = true ∧
    Event.logWarning ∈ usf_file_decode_cxx tv sv nup ec ef length fade rate iters ∧
    ((usf_file_decode_ms pv nup2 ec2 ef2 len2 rate2 iters2).all
      (fun e => !e.isDecoderInit && !e.isSubmitData)) = true ∧
    Event.logWarning ∈ usf_file_decode_ms pv nup2 ec2 ef2 len2 rate2 iters2 ∧
    (usf_scan_file_ms v prs).ok = false ∧
    (usf_scan_file_cxx v prs).ok = false ∧
    ((usf_scan_file_ms v prs).events.all
      (fun e => !e.isDurationReport && !e.isLogWarning)) = true ∧
    ((usf_scan_file_cxx v prs).events.all
      (fun e => !e.isDurationReport && !e.isLogWarning)) = true := by
  have hguard : tv ≠ 0x21 ∨ sv ≤ 0 := h.imp id le_of_lt
  have hdec : usf_file_decode_cxx tv sv nup ec ef length fade rate iters
      = ([Event.emuAlloc, Event.emuClear, Event.psfLoad, Event.psfLoad]
          ++ List.replicate nup Event.emuUpload) ++ [Event.logWarning, Event.emuFree] := by
    unfold usf_file_decode_cxx
    rw [if_pos hguard]
  have hdec2 : usf_file_decode_ms pv nup2 ec2 ef2 len2 rate2 iters2
      = ([Event.emuAlloc, Event.emuClear, Event.psfLoad]
          ++ List.replicate nup2 Event.emuUpload) ++ [Event.logWarning, Event.emuFree] := by
    unfold usf_file_decode_ms
    rw [if_pos hpv]
  have hms : usf_scan_file_ms v prs
      = ⟨false, Event.psfLoad :: (scan_fold_ms prs ⟨0, 0⟩).2⟩ := by
    unfold usf_scan_file_ms
    rw [if_pos hv]
  have hcx : usf_scan_file_cxx v prs
      = ⟨false, Event.psfLoad :: (scan_fold_cxx prs ⟨-1, 0⟩).2⟩ := by
    unfold usf_scan_file_cxx
    rw [if_pos hv]
  refine ⟨?_, ?_, ?_, ?_, ?_, ?_, ?_, ?_⟩
  · rw [hdec, List.all_append, List.all_append, replicate_upload_all nup _ rfl]
    rfl
  · rw [hdec]
    simp
  · rw [hdec2, List.all_append, List.all_append, replicate_upload_all nup2 _ rfl]
    rfl
  · rw [hdec2]
    simp
  · rw [hms]
  · rw [hcx]
  · rw [hms]
    dsimp only
    rw [List.all_cons,
      all_of_all_tagEmit _ _ (scan_fold_ms_tagEmit prs ⟨0, 0⟩) (fun t v2 => rfl)]
    rfl
  · rw [hcx]
    dsimp only
    rw [List.all_cons,
      all_of_all_tagEmit _ _ (scan_fold_cxx_tagEmit prs ⟨-1, 0⟩) (fun t v2 => rfl)]
    rfl

/-- C7 witness: the amended theorem applied at a mismatched sub-format
(0 instead of 0x21) for the fade-variant decode, a failed load (-1) for
the millisecond decode and a failed scan load (-1). -/
theorem claim_C7_witness : (usf_scan_file_ms (-1) []).ok = false :=
  (claim_C7 0 0 (Or.inl (by norm_num)) 0 false false 0 0 44100 [] (-1) (by norm_num)
    0 false false 0 44100 [] (-1) (by norm_num) []).2.2.2.2.1

/-- C8 counterexample: the fade-variant scan performs an effect that is
neither the container load, a tag emission nor the duration report: the
leftover `printf` of the computed duration. -/
theorem claim_C8_counterexample :
    ((usf_scan_file_cxx 0 []).events.all scanAllowed) = false := by decide

/-- C8 (amended): neither revision's scan path ever touches the
emulator (no allocation, clear, render, restart, upload, shutdown or
free); the millisecond revision's external effects are exactly the
container load, tag emissions and the duration report, and the
fade-variant revision adds only its leftover debug `printf`. -/
theorem claim_C8_amended (vm vc : ℤ) (prs : List (String × String)) :
    ((usf_scan_file_ms vm prs).events.all (fun e => !e.isEmu)) = true ∧
    ((usf_scan_file_cxx vc prs).events.all (fun e => !e.isEmu)) = true ∧
    ((usf_scan_file_ms vm prs).events.all scanAllowed) = true ∧
    ((usf_scan_file_cxx vc prs).events.all
      (fun e => scanAllowed e || e.isPrintf)) = true := by
  refine ⟨?_, ?_, ?_, ?_⟩
  · unfold usf_scan_file_ms
    split
    · dsimp only
      rw [List.all_cons,
        all_of_all_tagEmit _ _ (scan_fold_ms_tagEmit prs ⟨0, 0⟩) (fun t v2 => rfl)]
      rfl
    · dsimp only
      rw [List.all_cons, List.all_append,
        all_of_all_tagEmit _ _ (scan_fold_ms_tagEmit prs ⟨0, 0⟩) (fun t v2 => rfl)]
      rfl
  · unfold usf_scan_file_cxx
    split
    · dsimp only
      rw [List.all_cons,
        all_of_all_tagEmit _ _ (scan_fold_cxx_tagEmit prs ⟨-1, 0⟩) (fun t v2 => rfl)]
      rfl
    · dsimp only
      rw [List.all_cons, List.all_append,
        all_of_all_tagEmit _ _ (scan_fold_cxx_tagEmit prs ⟨-1, 0⟩) (fun t v2 => rfl)]
      rfl
  · unfold usf_scan_file_ms
    split
    · dsimp only
      rw [List.all_cons,
        all_of_all_tagEmit _ _ (scan_fold_ms_tagEmit prs ⟨0, 0⟩) (fun t v2 => rfl)]
      rfl
    · dsimp only
      rw [List.all_cons, List.all_append,
        all_of_all_tagEmit _ _ (scan_fold_ms_tagEmit prs ⟨0, 0⟩) (fun t v2 => rfl)]
      rfl
  · unfold usf_scan_file_cxx
    split
    · dsimp only
      rw [List.all_cons,
        all_of_all_tagEmit _ _ (scan_fold_cxx_tagEmit prs ⟨-1, 0⟩) (fun t v2 => rfl)]
      rfl
    · dsimp only
      rw [List.all_cons, List.all_append,
        all_of_all_tagEmit _ _ (scan_fold_cxx_tagEmit prs ⟨-1, 0⟩) (fun t v2 => rfl)]
      rfl

end Usf
